import Mathlib

set_option maxRecDepth 10000

/-!
Shallow embedding of the game-state and simulation core of the
easter-egg platformer (source: `src/engine.rs`).

Modelling conventions:
* `f32` coordinates, sizes and velocities become exact rationals (`ℚ`);
  none of the verified properties depends on floating-point rounding.
* The external collaborators of the core are passed in explicitly:
  the screen height (`screen_height()`) is a parameter `H`, the key
  state (`is_key_down` / `is_key_pressed`) is an `Input` record, and the
  random source (`gen_range`) is an oracle: a pair of streams together
  with a cursor, one draw consumed per `gen_range` call.  Theorems that
  need the random source to honour its requested range (the contract
  assumed by the code) take that as an explicit hypothesis.
* `&mut self` methods become pure functions `State → State × List Event × Rng`.
-/

namespace EasterEgg

attribute [local semireducible] Rat.add Rat.sub Rat.mul Rat.inv Rat.ofScientific

/-- 2D vector with rational components, standing for macroquad's `Vec2`. -/
structure Vec2 where
  x : ℚ
  y : ℚ
deriving DecidableEq

/-- Axis-aligned rectangle `(x, y, w, h)`, standing for macroquad's `Rect`;
position is the top-left corner, y grows downward. -/
structure Rect where
  x : ℚ
  y : ℚ
  w : ℚ
  h : ℚ
deriving DecidableEq

/-- macroquad `Rect::right`: the x coordinate of the right edge. -/
def Rect.right (r : Rect) : ℚ := r.x + r.w

/-- macroquad `Rect::bottom`: the y coordinate of the bottom edge. -/
def Rect.bottom (r : Rect) : ℚ := r.y + r.h

/-- macroquad `Rect::center`: the centre point of the rectangle. -/
def Rect.center (r : Rect) : Vec2 := ⟨r.x + r.w / 2, r.y + r.h / 2⟩

/-- macroquad `Rect::overlaps`: closed AABB intersection test. -/
def Rect.overlaps (a b : Rect) : Bool :=
  decide (a.x ≤ b.right) && decide (a.right ≥ b.x) &&
  decide (a.y ≤ b.bottom) && decide (a.bottom ≥ b.y)

-- --- Physics constants (`engine.rs`, top of file) ---

def GRAVITY : ℚ := 1000

def GROUND_DETECTION_BUFFER : ℚ := 5

def COLLISION_MARGIN : ℚ := 2

def PLAYER_START_POS : Vec2 := ⟨243, 350⟩

def PLAYER_MOVEMENT_SPEED : ℚ := 300

def PLAYER_JUMP_SPEED : ℚ := 500

def PLAYER_SIZE : Vec2 := ⟨30, 48⟩

def PLATFORM_SIZE : Vec2 := ⟨429, 141⟩

def PLATFORM_BAR_SIZE : Vec2 := ⟨(429 : ℚ) / 2, (141 : ℚ) / 2⟩

def CHICKEN_SIZE : Vec2 := ⟨52, 48⟩

def EGG_SIZE : Vec2 := ⟨40, 40⟩

def SPIKE_SIZE : Vec2 := ⟨60, 52⟩

def HOUSE_SIZE : Vec2 := ⟨423, 624⟩

def CLOUD_SIZE : Vec2 := ⟨786, 150⟩

def BACKGROUND_SIZE : Vec2 := ⟨1024, 2304⟩

def EGGS_NEEDED_FOR_HOUSE : ℕ := 2

def EGGS_NEEDED_FOR_WIN : ℕ := 5

/-- A basic game object: a positioned rectangle (`GameEntity`). -/
structure GameEntity where
  rect : Rect
deriving DecidableEq

/-- `GameEntity::get_collision_bounds`: the rectangle inset by
`COLLISION_MARGIN` on every side, used for all overlap tests. -/
def GameEntity.get_collision_bounds (e : GameEntity) : Rect :=
  { x := e.rect.x + COLLISION_MARGIN
    y := e.rect.y + COLLISION_MARGIN
    w := e.rect.w - COLLISION_MARGIN * 2
    h := e.rect.h - COLLISION_MARGIN * 2 }

/-- A movable game object: an entity plus a velocity (`MovingGameEntity`). -/
structure MovingGameEntity where
  entity : GameEntity
  velocity : Vec2
deriving DecidableEq

/-- `MovingGameEntity::apply_velocity`: Euler step, position advances by
`velocity * delta_time`. -/
def MovingGameEntity.apply_velocity (m : MovingGameEntity) (dt : ℚ) : MovingGameEntity :=
  { m with
    entity.rect.x := m.entity.rect.x + m.velocity.x * dt
    entity.rect.y := m.entity.rect.y + m.velocity.y * dt }

/-- Facing direction of the player (`MoveDirection`). -/
inductive MoveDirection where
  | Left
  | Right
deriving DecidableEq

/-- Ways the player can die (`DeathCause`). -/
inductive DeathCause where
  | Chicken
  | Spike
  | Fall
deriving DecidableEq

/-- Reason the game ended (`GameOverReason`). -/
inductive GameOverReason where
  | Death (cause : DeathCause) (score : ℕ)
  | End (meme : ℕ)
  | Win
deriving DecidableEq

/-- Events emitted for the presentation layer (`Event`). -/
inductive Event where
  | Jumped
  | Scored
  | GameOver (reason : GameOverReason)
deriving DecidableEq

/-- Payload of the `State::Game` variant: the run world. -/
structure GameWorld where
  player : MovingGameEntity
  player_direction : MoveDirection
  score : ℕ
  clouds : List MovingGameEntity
  platforms : List GameEntity
  eggs : List GameEntity
  chickens : List MovingGameEntity
  spikes : List GameEntity
  house : GameEntity
  background_entities : List GameEntity
deriving DecidableEq

/-- Top-level game state (`State`): title screen, active run, or end screen. -/
inductive State where
  | Start
  | Game (w : GameWorld)
  | GameOver (reason : GameOverReason)
deriving DecidableEq

/-- External random source, modelled as an oracle: a stream of rational
draws (for `gen_range` on floats), a stream of natural draws (for
`gen_range` on integers), and a cursor advanced by one per draw.  The
range arguments are recorded by the call sites; the contract that a draw
lies inside its requested range is assumed as a hypothesis where a
property depends on it. -/
structure Rng where
  floats : ℕ → ℚ
  ints : ℕ → ℕ
  pos : ℕ

/-- One float draw from the oracle (`gen_range(lo, hi)` on `f32`). -/
def genRangeF (_lo _hi : ℚ) (r : Rng) : ℚ × Rng :=
  (r.floats r.pos, { r with pos := r.pos + 1 })

/-- One integer draw from the oracle (`gen_range(lo, hi)` on integers). -/
def genRangeNat (_lo _hi : ℕ) (r : Rng) : ℕ × Rng :=
  (r.ints r.pos, { r with pos := r.pos + 1 })

/-- Instantaneous key state handed to `process_input` by the input
collaborator: held state for Left/Right, edge-triggered presses for
Up (jump), P (start) and R (restart). -/
structure Input where
  left_down : Bool
  right_down : Bool
  up_pressed : Bool
  p_pressed : Bool
  r_pressed : Bool

-- --- Level generation (`State::new_game`) ---

/-- Generate a list of `n` items with indices `0, 1, …, n-1` (ascending),
threading the random source left to right, starting at index `start`;
models an indexed `map`/`collect` over a Rust range whose closure draws
from the random source. -/
def genListAux (f : ℕ → Rng → α × Rng) (start : ℕ) : ℕ → Rng → List α × Rng
  | 0, rng => ([], rng)
  | n + 1, rng =>
    let a := f start rng
    let rest := genListAux f (start + 1) n a.2
    (a.1 :: rest.1, rest.2)

/-- Generate `n` items at indices `0, …, n-1`, threading the random source. -/
def genList (n : ℕ) (f : ℕ → Rng → α × Rng) (rng : Rng) : List α × Rng :=
  genListAux f 0 n rng

/-- Closed form of Rust's `(lo..=hi).step_by(step)` for `lo ≤ hi` and
`step > 0`: the values `lo + step * k` while they do not exceed `hi`. -/
def rustStepByInclusive (lo hi : ℤ) (step : ℕ) : List ℤ :=
  (List.range ((hi - lo).toNat / step + 1)).map fun k => lo + (step : ℤ) * k

/-- The 61 background tiles (`0..=60`), no random draws. -/
def mkBackground : List GameEntity :=
  (List.range 61).map fun i =>
    let x : ℚ := -1024 + (i : ℚ) * 1024
    { rect :=
      { x := x - BACKGROUND_SIZE.x / 2
        y := 336 - BACKGROUND_SIZE.y / 2
        w := BACKGROUND_SIZE.x
        h := BACKGROUND_SIZE.y } }

/-- One cloud: random height in `[100,500]`, random rightward speed in
`[20,60]` (two draws, in that order). -/
def cloudGen (i : ℕ) (rng : Rng) : MovingGameEntity × Rng :=
  let x : ℚ := -1024 + 500 * (i : ℚ)
  let y := genRangeF 100 500 rng
  let vx := genRangeF 20 60 y.2
  (⟨⟨{ x := x - CLOUD_SIZE.x / 2, y := y.1 - CLOUD_SIZE.y / 2
       w := CLOUD_SIZE.x, h := CLOUD_SIZE.y }⟩, ⟨vx.1, 0⟩⟩, vx.2)

/-- The 41 clouds (`0..=40`). -/
def mkClouds (rng : Rng) : List MovingGameEntity × Rng :=
  genList 41 cloudGen rng

/-- The ground platforms: x centres `(-429..=2000).step_by(400)`, resting
on the floor (`y = H - platform height`); no random draws. -/
def groundPlatforms (H : ℚ) : List GameEntity :=
  (rustStepByInclusive (-429) 2000 400).map fun x =>
    { rect :=
      { x := (x : ℚ) - PLATFORM_SIZE.x / 2
        y := H - PLATFORM_SIZE.y
        w := PLATFORM_SIZE.x
        h := PLATFORM_SIZE.y } }

/-- One floating platform: `x = i * 50 + gen_range(-200,200)`,
`y = gen_range(150,650)` (two draws, in that order), centre-based. -/
def floatingGen (i : ℕ) (rng : Rng) : GameEntity × Rng :=
  let xo := genRangeF (-200) 200 rng
  let x : ℚ := (i : ℚ) * 50 + xo.1
  let y := genRangeF 150 650 xo.2
  (⟨{ x := x - PLATFORM_BAR_SIZE.x / 2, y := y.1 - PLATFORM_BAR_SIZE.y / 2
      w := PLATFORM_BAR_SIZE.x, h := PLATFORM_BAR_SIZE.y }⟩, y.2)

/-- The platform list: ground platforms followed by 60 floating platforms. -/
def mkPlatforms (H : ℚ) (rng : Rng) : List GameEntity × Rng :=
  let floating := genList 60 floatingGen rng
  (groundPlatforms H ++ floating.1, floating.2)

/-- The random filter of `new_game`'s egg generation: one integer draw
`gen_range(0,100)` per platform, keeping the platform when the draw is
below 30; draws happen in platform order. -/
def eggSelect : List GameEntity → Rng → List GameEntity × Rng
  | [], rng => ([], rng)
  | p :: ps, rng =>
    let d := genRangeNat 0 100 rng
    let rest := eggSelect ps d.2
    if d.1 < 30 then (p :: rest.1, rest.2) else (rest.1, rest.2)

/-- One egg for the `i`-th selected platform (0-based among selected):
horizontal offset `(i - 0.5) * (platform width * 0.5)` from the platform
centre, y at platform top minus egg height plus 5. -/
def mkEgg (ip : ℕ × GameEntity) : GameEntity :=
  let i := ip.1
  let platform := ip.2
  let offset : ℚ := ((i : ℚ) - 1 / 2) * (platform.rect.w * (1 / 2))
  let x : ℚ := platform.rect.center.x + offset
  let y : ℚ := platform.rect.y - EGG_SIZE.y + 5
  ⟨{ x := x - EGG_SIZE.x / 2, y := y, w := EGG_SIZE.x, h := EGG_SIZE.y }⟩

/-- The egg list: platforms filtered at 30%, enumerated, mapped to eggs. -/
def mkEggs (platforms : List GameEntity) (rng : Rng) : List GameEntity × Rng :=
  let sel := eggSelect platforms rng
  (sel.1.enum.map mkEgg, sel.2)

/-- One chicken: random position, speed magnitudes and signs
(draw order: x, y, |vx|, sign of vx, |vy|, sign of vy). -/
def chickenGen (_i : ℕ) (rng : Rng) : MovingGameEntity × Rng :=
  let x := genRangeF 500 4000 rng
  let y := genRangeF 100 600 x.2
  let mx := genRangeF 50 150 y.2
  let sx := genRangeNat 0 2 mx.2
  let vx : ℚ := mx.1 * (if sx.1 = 0 then 1 else -1)
  let my := genRangeF 30 80 sx.2
  let sy := genRangeNat 0 2 my.2
  let vy : ℚ := my.1 * (if sy.1 = 0 then 1 else -1)
  (⟨⟨{ x := x.1 - CHICKEN_SIZE.x / 2, y := y.1 - CHICKEN_SIZE.y / 2
       w := CHICKEN_SIZE.x, h := CHICKEN_SIZE.y }⟩, ⟨vx, vy⟩⟩, sy.2)

/-- The 20 chickens. -/
def mkChickens (rng : Rng) : List MovingGameEntity × Rng :=
  genList 20 chickenGen rng

/-- The random filter of `new_game`'s spike generation: ground platforms
only (centre y strictly below the floating range), and on those one draw
`gen_range(0,5)` kept when it equals 0; short-circuit `&&` means the
draw happens only when the ground test passes. -/
def spikeSelect (H : ℚ) : List GameEntity → Rng → List GameEntity × Rng
  | [], rng => ([], rng)
  | p :: ps, rng =>
    if p.rect.center.y > H - PLATFORM_SIZE.y then
      let d := genRangeNat 0 5 rng
      let rest := spikeSelect H ps d.2
      if d.1 = 0 then (p :: rest.1, rest.2) else (rest.1, rest.2)
    else
      spikeSelect H ps rng

/-- One spike, anchored at its platform's right edge, on the surface. -/
def mkSpike (platform : GameEntity) : GameEntity :=
  ⟨{ x := platform.rect.right - SPIKE_SIZE.x / 2
     y := platform.rect.y - SPIKE_SIZE.y + 5
     w := SPIKE_SIZE.x
     h := SPIKE_SIZE.y }⟩

/-- The spike list. -/
def mkSpikes (H : ℚ) (platforms : List GameEntity) (rng : Rng) :
    List GameEntity × Rng :=
  let sel := spikeSelect H platforms rng
  (sel.1.map mkSpike, sel.2)

/-- The house (goal structure), fixed position. -/
def mkHouse : GameEntity :=
  ⟨{ x := 3000 - HOUSE_SIZE.x / 2, y := 292 - HOUSE_SIZE.y / 2
     w := HOUSE_SIZE.x, h := HOUSE_SIZE.y }⟩

/-- The starting player: centred at `PLAYER_START_POS`, zero velocity. -/
def startPlayer : MovingGameEntity :=
  ⟨⟨{ x := PLAYER_START_POS.x - PLAYER_SIZE.x / 2
      y := PLAYER_START_POS.y - PLAYER_SIZE.y / 2
      w := PLAYER_SIZE.x, h := PLAYER_SIZE.y }⟩, ⟨0, 0⟩⟩

/-- `State::new_game`: builds the whole run world from the screen height
and the random source, in the source's draw order (clouds, floating
platforms, egg filter, chickens, spike filter). -/
def newGameWorld (H : ℚ) (rng : Rng) : GameWorld × Rng :=
  let clouds := mkClouds rng
  let platforms := mkPlatforms H clouds.2
  let eggs := mkEggs platforms.1 platforms.2
  let chickens := mkChickens eggs.2
  let spikes := mkSpikes H platforms.1 chickens.2
  ({ player := startPlayer
     player_direction := .Right
     score := 0
     clouds := clouds.1
     platforms := platforms.1
     eggs := eggs.1
     chickens := chickens.1
     spikes := spikes.1
     house := mkHouse
     background_entities := mkBackground }, spikes.2)

-- --- Input processing (`State::process_input`) ---

/-- `State::process_input`: handles start/restart on the title and end
screens, horizontal movement and the jump gate during a run. -/
def State.process_input (inp : Input) (H : ℚ) (rng : Rng) :
    State → State × List Event × Rng
  | .Start =>
    if inp.p_pressed then
      (.Game (newGameWorld H rng).1, [], (newGameWorld H rng).2)
    else (.Start, [], rng)
  | .Game w =>
    let moved :=
      match inp.left_down, inp.right_down with
      | true, false =>
        { w with player_direction := .Left
                 player.velocity.x := -PLAYER_MOVEMENT_SPEED }
      | false, true =>
        { w with player_direction := .Right
                 player.velocity.x := PLAYER_MOVEMENT_SPEED }
      | _, _ => { w with player.velocity.x := 0 }
    if inp.up_pressed ∧ moved.player.velocity.y = 0 then
      (.Game { moved with player.velocity.y := -PLAYER_JUMP_SPEED },
       [.Jumped], rng)
    else
      (.Game moved, [], rng)
  | .GameOver r =>
    if inp.r_pressed then
      (.Game (newGameWorld H rng).1, [], (newGameWorld H rng).2)
    else (.GameOver r, [], rng)

-- --- Per-frame update (`State::update`) ---

/-- Gravity phase of `update`: add `GRAVITY * delta_time` to the
player's vertical velocity. -/
def applyGravity (dt : ℚ) (player : MovingGameEntity) : MovingGameEntity :=
  { player with velocity.y := player.velocity.y + GRAVITY * dt }

/-- The landing scan of `update` (a `find_map` over the platforms, run on
the pre-move position, after gravity): the first platform whose
horizontal span overlaps the player's, with the player not moving
upward, the player's bottom within the detection buffer above the
platform top, and the projected bottom at or below the platform top;
yields that platform's top y. -/
def groundCollision (dt : ℚ) (player : MovingGameEntity)
    (platforms : List GameEntity) : Option ℚ :=
  platforms.findSome? fun platform =>
    if player.entity.rect.right > platform.rect.x ∧
       player.entity.rect.x < platform.rect.right ∧
       player.velocity.y ≥ 0 ∧
       player.entity.rect.bottom ≤ platform.rect.y + GROUND_DETECTION_BUFFER ∧
       player.entity.rect.bottom + player.velocity.y * dt ≥ platform.rect.y
    then some platform.rect.y
    else none

/-- Landing response of `update`: snap the player's bottom edge to the
detected platform top and zero the vertical velocity. -/
def snapToPlatform (top : ℚ) (player : MovingGameEntity) : MovingGameEntity :=
  { player with entity.rect.y := top - player.entity.rect.h
                velocity.y := 0 }

/-- Chicken movement of `update`: Euler step, then reflect the horizontal
velocity when x leaves `[0, 5000]`, then reflect the vertical velocity
when y leaves `[0, 800]` (sign flips, positions never clamped). -/
def chickenStep (dt : ℚ) (c : MovingGameEntity) : MovingGameEntity :=
  let c := c.apply_velocity dt
  let c :=
    if c.entity.rect.x > 5000 ∨ c.entity.rect.x < 0 then
      { c with velocity.x := -c.velocity.x }
    else c
  if c.entity.rect.y > 800 ∨ c.entity.rect.y < 0 then
    { c with velocity.y := -c.velocity.y }
  else c

/-- Cloud movement of `update`: Euler step, wrap back to x = −1024 when
x exceeds 60000. -/
def cloudStep (dt : ℚ) (c : MovingGameEntity) : MovingGameEntity :=
  let c := c.apply_velocity dt
  if c.entity.rect.x > 60000 then
    { c with entity.rect.x := -1024 }
  else c

/-- The physics block of `update` (its first braced section): gravity,
landing scan on the pre-move position, Euler step, landing snap, chicken
and cloud movement.  Score, eggs, spikes and house are untouched here. -/
def physicsStep (dt : ℚ) (w : GameWorld) : GameWorld :=
  let player := applyGravity dt w.player
  let gc := groundCollision dt player w.platforms
  let player := player.apply_velocity dt
  let player :=
    match gc with
    | some top => snapToPlatform top player
    | none => player
  { w with player := player
           chickens := w.chickens.map (chickenStep dt)
           clouds := w.clouds.map (cloudStep dt) }

/-- True when the player's collision bounds overlap the given rectangle. -/
def touchingPlayer (player : MovingGameEntity) (r : Rect) : Bool :=
  (player.entity.get_collision_bounds).overlaps r

/-- The eggs whose collision bounds overlap the player's (the ones the
`retain` of `update` removes this frame). -/
def eggsPicked (w : GameWorld) : List GameEntity :=
  w.eggs.filter fun egg => touchingPlayer w.player egg.get_collision_bounds

/-- The eggs the `retain` of `update` keeps this frame. -/
def eggsKept (w : GameWorld) : List GameEntity :=
  w.eggs.filter fun egg => !touchingPlayer w.player egg.get_collision_bounds

/-- The world after the egg `retain`: overlapped eggs removed, score
incremented once per removed egg. -/
def afterPickup (w : GameWorld) : GameWorld :=
  { w with eggs := eggsKept w, score := w.score + (eggsPicked w).length }

/-- The `Scored` events pushed by the egg `retain`, one per removed egg. -/
def scoredEvents (w : GameWorld) : List Event :=
  (eggsPicked w).map fun _ => .Scored

/-- True when the player touches some chicken (collision bounds). -/
def hitsChicken (w : GameWorld) : Bool :=
  w.chickens.any fun chicken =>
    touchingPlayer w.player chicken.entity.get_collision_bounds

/-- True when the player touches some spike (collision bounds). -/
def hitsSpike (w : GameWorld) : Bool :=
  w.spikes.any fun spike => touchingPlayer w.player spike.get_collision_bounds

/-- True when the player touches the house (collision bounds). -/
def hitsHouse (w : GameWorld) : Bool :=
  touchingPlayer w.player w.house.get_collision_bounds

/-- The collision/termination block of `update` (its second braced
section), run on the post-physics world: fall check (early return,
before egg collection), egg `retain`, chicken check, spike check, house
check with the win/house thresholds; the meme ending draws one
`gen_range(0, 8)`. -/
def checkPhase (H : ℚ) (rng : Rng) (w : GameWorld) : State × List Event × Rng :=
  if w.player.entity.rect.bottom > H + 100 then
    (.GameOver (.Death .Fall w.score), [.GameOver (.Death .Fall w.score)], rng)
  else
    let w₁ := afterPickup w
    if hitsChicken w₁ then
      (.GameOver (.Death .Chicken w₁.score),
       scoredEvents w ++ [.GameOver (.Death .Chicken w₁.score)], rng)
    else if hitsSpike w₁ then
      (.GameOver (.Death .Spike w₁.score),
       scoredEvents w ++ [.GameOver (.Death .Spike w₁.score)], rng)
    else if hitsHouse w₁ then
      if EGGS_NEEDED_FOR_WIN ≤ w₁.score then
        (.GameOver .Win, scoredEvents w ++ [.GameOver .Win], rng)
      else if EGGS_NEEDED_FOR_HOUSE ≤ w₁.score then
        let meme := genRangeNat 0 8 rng
        (.GameOver (.End meme.1),
         scoredEvents w ++ [.GameOver (.End meme.1)], meme.2)
      else
        (.Game w₁, scoredEvents w, rng)
    else
      (.Game w₁, scoredEvents w, rng)

/-- `State::update`: physics then termination checks while in a run;
any other state is returned unchanged with no events. -/
def State.update (H dt : ℚ) (rng : Rng) : State → State × List Event × Rng
  | .Game w => checkPhase H rng (physicsStep dt w)
  | s => (s, [], rng)

-- --- Predicates and concrete data used by the verification ---

/-- The player rests exactly on platform `p`: zero vertical velocity,
bottom edge exactly on the platform top, horizontal spans overlapping
(the landing scan's horizontal test). -/
def restingOn (player : MovingGameEntity) (p : GameEntity) : Prop :=
  player.velocity.y = 0 ∧
  player.entity.rect.bottom = p.rect.y ∧
  player.entity.rect.right > p.rect.x ∧
  player.entity.rect.x < p.rect.right

/-- An all-zero random source, for concrete instantiations. -/
def rng0 : Rng := ⟨fun _ => 0, fun _ => 0, 0⟩

/-- A player at the origin with zero velocity. -/
def samplePlayer : MovingGameEntity :=
  ⟨⟨{ x := 0, y := 0, w := 30, h := 48 }⟩, ⟨0, 0⟩⟩

/-- A house placed over the origin (overlapping `samplePlayer`). -/
def sampleHouse : GameEntity := ⟨{ x := 0, y := 0, w := 423, h := 624 }⟩

/-- A chicken placed over the origin (overlapping `samplePlayer`). -/
def sampleChicken : MovingGameEntity :=
  ⟨⟨{ x := 0, y := 0, w := 52, h := 48 }⟩, ⟨0, 0⟩⟩

/-- An egg placed over the origin (overlapping `samplePlayer`). -/
def sampleEgg : GameEntity := ⟨{ x := 0, y := 0, w := 40, h := 40 }⟩

/-- A minimal run world: player at the origin, no entities nearby, the
house far away. -/
def emptyWorld : GameWorld :=
  { player := samplePlayer
    player_direction := .Right
    score := 0
    clouds := []
    platforms := []
    eggs := []
    chickens := []
    spikes := []
    house := ⟨{ x := 2000, y := 0, w := 423, h := 624 }⟩
    background_entities := [] }

/-- World where the player touches both a chicken and the house with
score 6 (the C1 priority scenario). -/
def wC1 : GameWorld :=
  { emptyWorld with score := 6, chickens := [sampleChicken], house := sampleHouse }

/-- World where the player touches only the house, with score 1. -/
def wC2 : GameWorld := { emptyWorld with score := 1, house := sampleHouse }

/-- World with one egg under the player and nothing else nearby. -/
def wC6 : GameWorld := { emptyWorld with eggs := [sampleEgg] }

/-- A platform with top edge at y = 500. -/
def restPlatform : GameEntity := ⟨{ x := 0, y := 500, w := 429, h := 141 }⟩

/-- World where the player rests exactly on `restPlatform`. -/
def wRest : GameWorld :=
  { emptyWorld with
    player := ⟨⟨{ x := 0, y := 452, w := 30, h := 48 }⟩, ⟨0, 0⟩⟩
    platforms := [restPlatform] }

/-- A chicken just past the right bounce boundary, moving right. -/
def cBounce : MovingGameEntity :=
  ⟨⟨{ x := 5001, y := 100, w := 52, h := 48 }⟩, ⟨10, 0⟩⟩

/-- World containing `cBounce`. -/
def wBounce : GameWorld := { emptyWorld with chickens := [cBounce] }

/-- An egg placed at the fallen player's position, below the screen. -/
def eggFall : GameEntity := ⟨{ x := 0, y := 800, w := 40, h := 40 }⟩

/-- World where the player has fallen below the screen while overlapping
`eggFall`. -/
def wFall : GameWorld :=
  { emptyWorld with
    player := ⟨⟨{ x := 0, y := 800, w := 30, h := 48 }⟩, ⟨0, 0⟩⟩
    eggs := [eggFall] }

/-- Key state with only the jump key pressed. -/
def inpUp : Input := ⟨false, false, true, false, false⟩

-- --- Helper lemmas ---

/-- `genListAux` always produces exactly `n` items. -/
theorem genListAux_length {α : Type} (f : ℕ → Rng → α × Rng) :
    ∀ (n start : ℕ) (rng : Rng), ((genListAux f start n rng).1).length = n := by
  intro n
  induction n with
  | zero => intro start rng; rfl
  | succ n ih => intro start rng; simp [genListAux, ih]

/-- `genList` always produces exactly `n` items. -/
theorem genList_length {α : Type} (n : ℕ) (f : ℕ → Rng → α × Rng) (rng : Rng) :
    ((genList n f rng).1).length = n :=
  genListAux_length f n 0 rng

/-- The egg filter keeps a sublist of the platforms. -/
theorem eggSelect_sublist :
    ∀ (l : List GameEntity) (rng : Rng), ((eggSelect l rng).1).Sublist l := by
  intro l
  induction l with
  | nil => intro rng; exact .slnil
  | cons p ps ih =>
    intro rng
    simp only [eggSelect]
    split
    · exact .cons₂ p (ih _)
    · exact .cons p (ih _)

/-- Filtering a list by a predicate and by its negation partitions it. -/
theorem length_filter_partition {α : Type} (p : α → Bool) (l : List α) :
    (l.filter p).length + (l.filter fun a => !p a).length = l.length := by
  induction l with
  | nil => rfl
  | cons a l ih => cases h : p a <;> simp [List.filter_cons, h, ← ih] <;> omega

/-- `findSome?` succeeds whenever some element succeeds. -/
theorem exists_findSome?_of_mem {α β : Type} {f : α → Option β} {l : List α}
    {a : α} {b : β} (ha : a ∈ l) (hb : f a = some b) :
    ∃ c, l.findSome? f = some c := by
  induction l with
  | nil => cases ha
  | cons x xs ih =>
    rcases List.mem_cons.1 ha with rfl | ha'
    · exact ⟨b, by simp [List.findSome?_cons, hb]⟩
    · cases hfx : f x with
      | some v => exact ⟨v, by simp [List.findSome?_cons, hfx]⟩
      | none =>
        rcases ih ha' with ⟨c, hc⟩
        exact ⟨c, by simp [List.findSome?_cons, hfx, hc]⟩

/-- A chicken's x position is always the Euler translation of the old
position: the bounce never clamps position. -/
theorem chickenStep_rect_x (d : ℚ) (c : MovingGameEntity) :
    (chickenStep d c).entity.rect.x = c.entity.rect.x + c.velocity.x * d := by
  simp only [chickenStep, MovingGameEntity.apply_velocity]
  split <;> split <;> rfl

-- --- Claim theorems ---

/-- C10: calling `update` when the state is `Start` or `GameOver` returns
an empty event list and leaves the state (and the random source)
completely unchanged, for every `delta_time`. -/
theorem update_noop_outside_game (H dt : ℚ) (rng : Rng) :
    State.update H dt rng .Start = (.Start, [], rng) ∧
    ∀ reason, State.update H dt rng (.GameOver reason) = (.GameOver reason, [], rng) :=
  ⟨rfl, fun _ => rfl⟩

/-- C5: in a `Game` state, a jump press is accepted only at vertical
velocity exactly 0: pressing jump with nonzero vertical velocity emits
no event and leaves the vertical velocity unchanged; pressing jump at
vertical velocity 0 sets it to the upward jump speed and emits exactly
one `Jumped` event. -/
theorem jump_gating (inp : Input) (H : ℚ) (rng : Rng) (w : GameWorld) :
    (w.player.velocity.y ≠ 0 →
      ∃ w', State.process_input inp H rng (.Game w) = (.Game w', [], rng) ∧
        w'.player.velocity.y = w.player.velocity.y) ∧
    (inp.up_pressed = true → w.player.velocity.y = 0 →
      ∃ w', State.process_input inp H rng (.Game w) = (.Game w', [.Jumped], rng) ∧
        w'.player.velocity.y = -PLAYER_JUMP_SPEED) := by
  constructor
  · intro hv
    cases hl : inp.left_down <;> cases hr : inp.right_down <;>
      · simp only [State.process_input, hl, hr]
        rw [if_neg (fun h => hv h.2)]
        exact ⟨_, rfl, rfl⟩
  · intro hup hv
    cases hl : inp.left_down <;> cases hr : inp.right_down <;>
      · simp only [State.process_input, hl, hr]
        rw [if_pos ⟨hup, hv⟩]
        exact ⟨_, rfl, rfl⟩

/-- Closed instance of C5: jumping from rest emits one `Jumped` event and
sets the jump velocity. -/
theorem jump_gating_witness :
    ∃ w', State.process_input inpUp 600 rng0 (.Game emptyWorld) = (.Game w', [.Jumped], rng0) ∧
      w'.player.velocity.y = -PLAYER_JUMP_SPEED :=
  (jump_gating inpUp 600 rng0 emptyWorld).2 rfl rfl

/-- C9: a chicken at x = 5001 with positive x velocity has its x velocity
sign flipped on the next update while its position keeps the plain Euler
translation (reflection is a sign flip, never a position clamp; every
chicken step translates by velocity times delta, unconditionally). -/
theorem chicken_bounce (dt : ℚ) (w : GameWorld) (c : MovingGameEntity)
    (hdt : 0 ≤ dt) (hc : c ∈ w.chickens)
    (hx : c.entity.rect.x = 5001) (hvx : 0 < c.velocity.x) :
    chickenStep dt c ∈ (physicsStep dt w).chickens ∧
    (chickenStep dt c).velocity.x = -c.velocity.x ∧
    (chickenStep dt c).entity.rect.x = c.entity.rect.x + c.velocity.x * dt ∧
    ∀ (d : ℚ) (c' : MovingGameEntity),
      (chickenStep d c').entity.rect.x = c'.entity.rect.x + c'.velocity.x * d := by
  refine ⟨List.mem_map_of_mem (chickenStep dt) hc, ?_,
    chickenStep_rect_x dt c, chickenStep_rect_x⟩
  have hx' : (c.apply_velocity dt).entity.rect.x > 5000 := by
    show c.entity.rect.x + c.velocity.x * dt > 5000
    rw [hx]
    linarith [mul_nonneg hvx.le hdt]
  simp only [chickenStep]
  rw [if_pos (Or.inl hx')]
  split <;> rfl

/-- Closed instance of C9 at `cBounce` in `wBounce` with delta 1. -/
theorem chicken_bounce_witness :
    chickenStep 1 cBounce ∈ (physicsStep 1 wBounce).chickens ∧
    (chickenStep 1 cBounce).velocity.x = -cBounce.velocity.x ∧
    (chickenStep 1 cBounce).entity.rect.x = cBounce.entity.rect.x + cBounce.velocity.x * 1 ∧
    ∀ (d : ℚ) (c' : MovingGameEntity),
      (chickenStep d c').entity.rect.x = c'.entity.rect.x + c'.velocity.x * d :=
  chicken_bounce 1 wBounce cBounce (by decide) (by decide) (by decide) (by decide)

/-- C1: the termination checks run in priority order fall, chicken,
spike, goal: when (after the physics phase) the player overlaps both a
chicken and the house with a winning score and has not fallen, the frame
ends in `Death Chicken`, not `Win`, and the event list shows the death
check returned early (only the pickup events precede it). -/
theorem death_precedes_goal (H dt : ℚ) (rng : Rng) (w : GameWorld)
    (hnf : ¬ ((physicsStep dt w).player.entity.rect.bottom > H + 100))
    (hch : hitsChicken (afterPickup (physicsStep dt w)) = true)
    (_hho : hitsHouse (afterPickup (physicsStep dt w)) = true)
    (_hsc : EGGS_NEEDED_FOR_WIN ≤ (afterPickup (physicsStep dt w)).score) :
    (State.update H dt rng (.Game w)).1 =
      .GameOver (.Death .Chicken (afterPickup (physicsStep dt w)).score) ∧
    (State.update H dt rng (.Game w)).2.1 =
      scoredEvents (physicsStep dt w) ++
        [.GameOver (.Death .Chicken (afterPickup (physicsStep dt w)).score)] ∧
    (State.update H dt rng (.Game w)).1 ≠ .GameOver .Win := by
  have hupd : State.update H dt rng (.Game w) =
      checkPhase H rng (physicsStep dt w) := rfl
  rw [hupd]
  simp only [checkPhase]
  rw [if_neg hnf, if_pos hch]
  exact ⟨rfl, rfl, by simp⟩

/-- Closed instance of C1: in `wC1` (chicken and house both touched,
score 6) the frame ends in `Death Chicken 6`, not `Win`. -/
theorem death_precedes_goal_witness :
    (State.update 600 0 rng0 (.Game wC1)).1 = .GameOver (.Death .Chicken 6) ∧
    (State.update 600 0 rng0 (.Game wC1)).1 ≠ .GameOver .Win := by
  have h := death_precedes_goal 600 0 rng0 wC1 (by decide) (by decide) (by decide)
    (by decide)
  exact ⟨h.1.trans (by decide), h.2.2⟩

/-- C2: if during the termination phase the player overlaps the house
and no death check fired, then score ≥ 5 gives `Win`, 2 ≤ score < 5
gives `End` with a meme index below 8, and score < 2 leaves the state in
`Game` (the world after egg pickup), no transition. -/
theorem goal_thresholds (H dt : ℚ) (rng : Rng) (w : GameWorld)
    (hnf : ¬ ((physicsStep dt w).player.entity.rect.bottom > H + 100))
    (hch : hitsChicken (afterPickup (physicsStep dt w)) = false)
    (hsp : hitsSpike (afterPickup (physicsStep dt w)) = false)
    (hho : hitsHouse (afterPickup (physicsStep dt w)) = true)
    (h8 : rng.ints rng.pos < 8) :
    (EGGS_NEEDED_FOR_WIN ≤ (afterPickup (physicsStep dt w)).score →
      (State.update H dt rng (.Game w)).1 = .GameOver .Win) ∧
    (EGGS_NEEDED_FOR_HOUSE ≤ (afterPickup (physicsStep dt w)).score →
      (afterPickup (physicsStep dt w)).score < EGGS_NEEDED_FOR_WIN →
      ∃ m, m < 8 ∧ (State.update H dt rng (.Game w)).1 = .GameOver (.End m)) ∧
    ((afterPickup (physicsStep dt w)).score < EGGS_NEEDED_FOR_HOUSE →
      (State.update H dt rng (.Game w)).1 = .Game (afterPickup (physicsStep dt w))) := by
  have hupd : State.update H dt rng (.Game w) =
      checkPhase H rng (physicsStep dt w) := rfl
  have hch' : ¬ (hitsChicken (afterPickup (physicsStep dt w)) = true) := by
    rw [hch]; simp
  have hsp' : ¬ (hitsSpike (afterPickup (physicsStep dt w)) = true) := by
    rw [hsp]; simp
  refine ⟨?_, ?_, ?_⟩
  · intro hwin
    rw [hupd]
    simp only [checkPhase]
    rw [if_neg hnf, if_neg hch', if_neg hsp', if_pos hho, if_pos hwin]
  · intro hge hlt
    rw [hupd]
    simp only [checkPhase]
    rw [if_neg hnf, if_neg hch', if_neg hsp', if_pos hho, if_neg (not_le.2 hlt),
      if_pos hge]
    exact ⟨rng.ints rng.pos, h8, rfl⟩
  · intro hlt2
    have hlt5 : (afterPickup (physicsStep dt w)).score < EGGS_NEEDED_FOR_WIN :=
      lt_of_lt_of_le hlt2 (by decide)
    rw [hupd]
    simp only [checkPhase]
    rw [if_neg hnf, if_neg hch', if_neg hsp', if_pos hho, if_neg (not_le.2 hlt5),
      if_neg (not_le.2 hlt2)]

/-- Closed instance of C2: in `wC2` (house touched, score 1) the state
remains `Game` with the post-pickup world. -/
theorem goal_thresholds_witness :
    (State.update 600 0 rng0 (.Game wC2)).1 = .Game (afterPickup (physicsStep 0 wC2)) :=
  (goal_thresholds 600 0 rng0 wC2 (by decide) (by decide) (by decide) (by decide)
    (by decide)).2.2 (by decide)

/-- Counterexample to C3 as stated: in `wFall` the player's collision
rectangle overlaps an egg's at check time, yet the fall check preempts
egg pickup — the frame emits no `Scored` event and ends with score 0, so
pickup is not independent of all death checks. -/
theorem pickup_preempted_by_fall :
    touchingPlayer (physicsStep 0 wFall).player eggFall.get_collision_bounds = true ∧
    (physicsStep 0 wFall).eggs = [eggFall] ∧
    (State.update 600 0 rng0 (.Game wFall)).1 = .GameOver (.Death .Fall 0) ∧
    (State.update 600 0 rng0 (.Game wFall)).2.1 = [.GameOver (.Death .Fall 0)] ∧
    Event.Scored ∉ (State.update 600 0 rng0 (.Game wFall)).2.1 :=
  ⟨by decide, by decide, by decide, by decide, by decide⟩

/-- C3 amended: when the fall check does not fire, egg pickup happens in
the frame regardless of the chicken, spike and goal checks — the event
list starts with exactly the `Scored` events of the overlapped eggs, and
if the frame stays in `Game` the overlapped eggs are removed and the
score incremented accordingly.  (Pickup is preempted only by the fall
check, which precedes it and returns early.) -/
theorem pickup_not_preempted_unless_fall (H dt : ℚ) (rng : Rng) (w : GameWorld)
    (hnf : ¬ ((physicsStep dt w).player.entity.rect.bottom > H + 100)) :
    (∃ rest, (State.update H dt rng (.Game w)).2.1 =
        scoredEvents (physicsStep dt w) ++ rest ∧ Event.Scored ∉ rest) ∧
    ∀ w', (State.update H dt rng (.Game w)).1 = .Game w' →
      w'.eggs = eggsKept (physicsStep dt w) ∧
      w'.score = (physicsStep dt w).score + (eggsPicked (physicsStep dt w)).length := by
  have hupd : State.update H dt rng (.Game w) =
      checkPhase H rng (physicsStep dt w) := rfl
  rw [hupd]
  simp only [checkPhase, if_neg hnf]
  constructor
  · split
    · exact ⟨_, rfl, by simp⟩
    · split
      · exact ⟨_, rfl, by simp⟩
      · split
        · split
          · exact ⟨_, rfl, by simp⟩
          · split
            · exact ⟨_, rfl, by simp⟩
            · exact ⟨[], by simp, by simp⟩
        · exact ⟨[], by simp, by simp⟩
  · intro w' hw'
    split at hw'
    · simp at hw'
    · split at hw'
      · simp at hw'
      · split at hw'
        · split at hw'
          · simp at hw'
          · split at hw'
            · simp at hw'
            · injection hw' with h
              subst h
              exact ⟨rfl, rfl⟩
        · injection hw' with h
          subst h
          exact ⟨rfl, rfl⟩

/-- Closed instance of the amended C3 at `wC1`: the chicken death does
not swallow the pickup events of the same frame. -/
theorem pickup_not_preempted_witness :
    (∃ rest, (State.update 600 0 rng0 (.Game wC1)).2.1 =
        scoredEvents (physicsStep 0 wC1) ++ rest ∧ Event.Scored ∉ rest) ∧
    ∀ w', (State.update 600 0 rng0 (.Game wC1)).1 = .Game w' →
      w'.eggs = eggsKept (physicsStep 0 wC1) ∧
      w'.score = (physicsStep 0 wC1).score + (eggsPicked (physicsStep 0 wC1)).length :=
  pickup_not_preempted_unless_fall 600 0 rng0 wC1 (by decide)

/-- C6: within a run the score is monotonically non-decreasing under
every `update` and `process_input` call that stays in `Game`; the egg
list only ever shrinks (a removed egg can never return), and each frame
the score increment equals the number of removed eggs — each egg
contributes at most one increment over the run. -/
theorem score_monotone (H dt : ℚ) (rng : Rng) (w : GameWorld) :
    (∀ w', (State.update H dt rng (.Game w)).1 = .Game w' →
      w.score ≤ w'.score ∧ w'.eggs.Sublist w.eggs ∧
      w'.score = w.score + (w.eggs.length - w'.eggs.length)) ∧
    (∀ (inp : Input) (w₂ : GameWorld),
      (State.process_input inp H rng (.Game w)).1 = .Game w₂ →
      w₂.score = w.score ∧ w₂.eggs = w.eggs) := by
  constructor
  · intro w' hw'
    have hupd : State.update H dt rng (.Game w) =
        checkPhase H rng (physicsStep dt w) := rfl
    rw [hupd] at hw'
    simp only [checkPhase] at hw'
    split at hw'
    · simp at hw'
    · split at hw'
      · simp at hw'
      · split at hw'
        · simp at hw'
        · split at hw'
          · split at hw'
            · simp at hw'
            · split at hw'
              · simp at hw'
              · injection hw' with h
                subst h
                refine ⟨Nat.le_add_right _ _, List.filter_sublist _, ?_⟩
                have hpart := length_filter_partition
                  (fun egg => touchingPlayer (physicsStep dt w).player
                    egg.get_collision_bounds) w.eggs
                show w.score + (eggsPicked (physicsStep dt w)).length =
                  w.score + (w.eggs.length - (eggsKept (physicsStep dt w)).length)
                have h1 : (eggsPicked (physicsStep dt w)).length +
                    (eggsKept (physicsStep dt w)).length = w.eggs.length := hpart
                omega
          · injection hw' with h
            subst h
            refine ⟨Nat.le_add_right _ _, List.filter_sublist _, ?_⟩
            have hpart := length_filter_partition
              (fun egg => touchingPlayer (physicsStep dt w).player
                egg.get_collision_bounds) w.eggs
            show w.score + (eggsPicked (physicsStep dt w)).length =
              w.score + (w.eggs.length - (eggsKept (physicsStep dt w)).length)
            have h1 : (eggsPicked (physicsStep dt w)).length +
                (eggsKept (physicsStep dt w)).length = w.eggs.length := hpart
            omega
  · intro inp w₂ h
    cases hl : inp.left_down <;> cases hr : inp.right_down <;>
      · simp only [State.process_input, hl, hr] at h
        split at h
        · injection h with h2
          subst h2
          exact ⟨rfl, rfl⟩
        · injection h with h2
          subst h2
          exact ⟨rfl, rfl⟩

/-- C4: once the player rests exactly on a platform top with zero
vertical velocity and overlapping horizontal spans, any `update` with
nonnegative delta detects a landing (the scan succeeds) and snaps the
player: vertical velocity stays exactly 0 and the bottom edge exactly
equals the detected platform top; when the scan detects the resting
platform itself, the bottom stays exactly at that platform's top and the
resting conditions are re-established for the next frame (no
re-accumulating fall-through). -/
theorem landing_idempotent (dt : ℚ) (w : GameWorld) (p : GameEntity)
    (hdt : 0 ≤ dt) (hp : p ∈ w.platforms) (hr : restingOn w.player p) :
    (∃ t, groundCollision dt (applyGravity dt w.player) w.platforms = some t ∧
      (physicsStep dt w).player.velocity.y = 0 ∧
      (physicsStep dt w).player.entity.rect.bottom = t) ∧
    (groundCollision dt (applyGravity dt w.player) w.platforms = some p.rect.y →
      ((physicsStep dt w).player.velocity.y = 0 ∧
       (physicsStep dt w).player.entity.rect.bottom = p.rect.y) ∧
      ((physicsStep dt w).player.entity.rect.right > p.rect.x →
       (physicsStep dt w).player.entity.rect.x < p.rect.right →
       restingOn (physicsStep dt w).player p)) := by
  obtain ⟨hv0, hb, hx1, hx2⟩ := hr
  have hvy : (applyGravity dt w.player).velocity.y = GRAVITY * dt := by
    show w.player.velocity.y + GRAVITY * dt = GRAVITY * dt
    rw [hv0]; ring
  have hsnap : ∀ t, groundCollision dt (applyGravity dt w.player) w.platforms = some t →
      (physicsStep dt w).player.velocity.y = 0 ∧
      (physicsStep dt w).player.entity.rect.bottom = t := by
    intro t ht
    have hps : (physicsStep dt w).player =
        snapToPlatform t ((applyGravity dt w.player).apply_velocity dt) := by
      simp only [physicsStep, ht]
    rw [hps]
    refine ⟨rfl, ?_⟩
    show t - ((applyGravity dt w.player).apply_velocity dt).entity.rect.h +
      ((applyGravity dt w.player).apply_velocity dt).entity.rect.h = t
    ring
  have hfp : (if (applyGravity dt w.player).entity.rect.right > p.rect.x ∧
      (applyGravity dt w.player).entity.rect.x < p.rect.right ∧
      (applyGravity dt w.player).velocity.y ≥ 0 ∧
      (applyGravity dt w.player).entity.rect.bottom ≤
        p.rect.y + GROUND_DETECTION_BUFFER ∧
      (applyGravity dt w.player).entity.rect.bottom +
        (applyGravity dt w.player).velocity.y * dt ≥ p.rect.y
      then some p.rect.y else none) = some p.rect.y := by
    rw [if_pos]
    refine ⟨hx1, hx2, ?_, ?_, ?_⟩
    · rw [hvy]
      exact mul_nonneg (by norm_num [GRAVITY]) hdt
    · show w.player.entity.rect.bottom ≤ p.rect.y + GROUND_DETECTION_BUFFER
      rw [hb]
      norm_num [GROUND_DETECTION_BUFFER]
    · show w.player.entity.rect.bottom +
        (applyGravity dt w.player).velocity.y * dt ≥ p.rect.y
      rw [hb, hvy]
      nlinarith [mul_nonneg (mul_nonneg (show (0:ℚ) ≤ GRAVITY by norm_num [GRAVITY]) hdt) hdt]
  have hscan : ∃ t, groundCollision dt (applyGravity dt w.player) w.platforms = some t :=
    exists_findSome?_of_mem hp hfp
  obtain ⟨t, ht⟩ := hscan
  refine ⟨⟨t, ht, hsnap t ht⟩, fun hpt => ?_⟩
  refine ⟨hsnap _ hpt, fun hx1' hx2' => ?_⟩
  exact ⟨(hsnap _ hpt).1, (hsnap _ hpt).2, hx1', hx2'⟩

/-- Closed instance of C4 at `wRest` with delta 1: the resting player
keeps vertical velocity 0 and bottom edge on the platform top. -/
theorem landing_idempotent_witness :
    (physicsStep 1 wRest).player.velocity.y = 0 ∧
    (physicsStep 1 wRest).player.entity.rect.bottom = restPlatform.rect.y :=
  ((landing_idempotent 1 wRest restPlatform (by decide) (by decide)
    ⟨by decide, by decide, by decide, by decide⟩).2 (by decide)).1

/-- C7: every freshly generated run has platforms = ground platforms
followed by 60 floating platforms, with exactly 7 ground platforms whose
x centres step from −429 by 400 (67 platforms total); the ground part is
the same whatever the random source produces. -/
theorem platform_generation (H : ℚ) (rng : Rng) :
    ∃ floating,
      (newGameWorld H rng).1.platforms = groundPlatforms H ++ floating ∧
      (groundPlatforms H).length = 7 ∧
      floating.length = 60 ∧
      (newGameWorld H rng).1.platforms.length = 67 ∧
      (groundPlatforms H).map (fun p => p.rect.x + PLATFORM_SIZE.x / 2) =
        [-429, -29, 371, 771, 1171, 1571, 1971] := by
  refine ⟨(genList 60 floatingGen (mkClouds rng).2).1, rfl, rfl, genList_length _ _ _, ?_, ?_⟩
  · show (groundPlatforms H ++ (genList 60 floatingGen (mkClouds rng).2).1).length = 67
    rw [List.length_append, genList_length]
    rfl
  · have hsteps : rustStepByInclusive (-429) 2000 400 =
        [-429, -29, 371, 771, 1171, 1571, 1971] := by decide
    simp only [groundPlatforms, hsteps, List.map_cons, List.map_nil, PLATFORM_SIZE]
    norm_num

/-- Helper for C8: eggs generated from a platform list are at most as
many as the platforms, and each sits at its anchoring platform's top
minus the egg height plus 5. -/
theorem mkEggs_spec (platforms : List GameEntity) (rng : Rng) :
    (mkEggs platforms rng).1.length ≤ platforms.length ∧
    ∀ e ∈ (mkEggs platforms rng).1, ∃ p ∈ platforms,
      e.rect.y = p.rect.y - EGG_SIZE.y + 5 := by
  constructor
  · show ((eggSelect platforms rng).1.enum.map mkEgg).length ≤ platforms.length
    rw [List.length_map, List.enum_length]
    exact (eggSelect_sublist platforms rng).length_le
  · intro e he
    obtain ⟨ip, hip, rfl⟩ := List.mem_map.1 he
    have hsnd : ip.2 ∈ (eggSelect platforms rng).1 :=
      List.snd_mem_of_mem_enumFrom hip
    exact ⟨ip.2, (eggSelect_sublist platforms rng).subset hsnd, rfl⟩

/-- C8: in every freshly generated run the number of eggs is at most the
number of platforms, and every egg's initial top y equals some
platform's top y minus the egg height plus 5. -/
theorem egg_generation (H : ℚ) (rng : Rng) :
    (newGameWorld H rng).1.eggs.length ≤ (newGameWorld H rng).1.platforms.length ∧
    ((newGameWorld H rng).1.eggs.all fun e =>
      (newGameWorld H rng).1.platforms.any fun p =>
        decide (e.rect.y = p.rect.y - EGG_SIZE.y + 5)) = true := by
  have hspec := mkEggs_spec (mkPlatforms H (mkClouds rng).2).1
    (mkPlatforms H (mkClouds rng).2).2
  constructor
  · exact hspec.1
  · rw [List.all_eq_true]
    intro e he
    obtain ⟨p, hp, hy⟩ := hspec.2 e he
    rw [List.any_eq_true]
    exact ⟨p, hp, by rw [decide_eq_true_eq]; exact hy⟩

/-- Closed instance of C6 at `wC6`: picking up the single egg raises the
score from 0 to 1 and removes the egg permanently. -/
theorem score_monotone_witness :
    wC6.score ≤ (afterPickup (physicsStep 0 wC6)).score ∧
    (afterPickup (physicsStep 0 wC6)).eggs.Sublist wC6.eggs ∧
    (afterPickup (physicsStep 0 wC6)).score =
      wC6.score + (wC6.eggs.length - (afterPickup (physicsStep 0 wC6)).eggs.length) :=
  (score_monotone 600 0 rng0 wC6).1 (afterPickup (physicsStep 0 wC6)) (by decide)

end EasterEgg
